import Mathlib

/-!
Verification of the core fuzzer engine (`src/fuzzer.cpp`).

The engine is shallowly embedded: coverage sets become `Finset (Nat × Nat)`
(edges are `(module_id, offset)` pairs), samples become `List Nat` (byte
vectors), and each routine of `Fuzzer` becomes a pure Lean function over the
pieces of engine state it reads and writes.  Routines whose bodies live
outside `src/` (the coverage-set primitives of `coverage.h`, the priority
queue comparator of `fuzzer.h`) are modelled from the specification and
marked as such in their doc comments.
-/

namespace Haze

/-- An instrumented control-flow edge: a `(module_id, offset)` pair. -/
abbrev Edge := Nat × Nat

/-- Modelled from the spec: `Coverage` (coverage.h, not in src/) is a set of
edges supporting union, difference, intersection, containment and emptiness. -/
abbrev Coverage := Finset Edge

/-- Modelled from the spec: `MergeCoverage(A, B)` performs `A ← A ∪ B`;
embedded as returning the new value of `A`. -/
def MergeCoverage (a b : Coverage) : Coverage := a ∪ b

/-- Modelled from the spec: `CoverageDifference(A, B, C)` computes
`C ← B \ A` (the edges of `B` not already in `A`); embedded as returning `C`. -/
def CoverageDifference (a b : Coverage) : Coverage := b \ a

/-- Modelled from the spec: `CoverageIntersection(A, B, C)` computes
`C ← A ∩ B`; embedded as returning `C`. -/
def CoverageIntersection (a b : Coverage) : Coverage := a ∩ b

/-- Modelled from the spec: `CoverageContains(super, sub)` is true iff
`sub ⊆ super`. -/
def CoverageContains (sup sub : Coverage) : Bool := decide (sub ⊆ sup)

/-- Modelled from the spec: `Coverage::empty()`. -/
def coverageEmpty (a : Coverage) : Bool := decide (a = ∅)

/-- Result of one target execution (`RunResult` from common.h, used but not
defined in src/; the spec lists OK / HANG / CRASH / ERROR). -/
inductive RunResult
| OK
| CRASH
| HANG
| ERROR
deriving DecidableEq, Repr

/-- The outcome of one `RunSampleAndGetCoverage` call: the classified result
together with the coverage artifact collected for that run. -/
structure RunOutcome where
  result : RunResult
  cov : Coverage
deriving DecidableEq

/-! ## InterestingSample (fuzzer.cpp lines 441-466) -/

/-- Output of `Fuzzer::InterestingSample`: the updated global
`fuzzer_coverage`, the two diffs written back through the caller's pointers,
and the returned flag. -/
structure InterestingOut where
  fuzzer_coverage : Coverage
  stableOut : Coverage
  variableOut : Coverage
  accepted : Bool
deriving DecidableEq

/-- `Fuzzer::InterestingSample` (fuzzer.cpp lines 441-466), embedded as a
function of the global `fuzzer_coverage` and the two coverage sets passed by
pointer.  The body runs under `coverage_mutex`; the embedding is the state
transformation performed inside that critical section. -/
def InterestingSample (fuzzer_coverage stableCoverage variableCoverage : Coverage) :
    InterestingOut :=
  let new_stable_coverage := CoverageDifference fuzzer_coverage stableCoverage
  let new_variable_coverage := CoverageDifference fuzzer_coverage variableCoverage
  let fc1 := MergeCoverage fuzzer_coverage new_stable_coverage
  let fc2 := MergeCoverage fc1 new_variable_coverage
  { fuzzer_coverage := fc2
    stableOut := new_stable_coverage
    variableOut := new_variable_coverage
    accepted := !coverageEmpty new_stable_coverage }

/-! ## AdjustSamplePriority (fuzzer.cpp lines 723-726) -/

/-- A corpus entry (`SampleQueueEntry` from fuzzer.h, not in src/; fields
modelled from the spec's data model; the opaque mutator `context` pointer is
represented only by its `context_initialized` flag). -/
structure SampleQueueEntry where
  sample : List Nat
  context_initialized : Bool
  priority : Int
  sample_index : Nat
  num_runs : Nat := 0
  num_newcoverage : Nat := 0
  num_hangs : Nat := 0
  num_crashes : Nat := 0
deriving DecidableEq, Repr

/-- `Fuzzer::AdjustSamplePriority` (fuzzer.cpp lines 723-726). -/
def AdjustSamplePriority (entry : SampleQueueEntry) (found_new_coverage : Bool) :
    SampleQueueEntry :=
  if found_new_coverage then { entry with priority := 0 }
  else { entry with priority := entry.priority - 1 }

/-! ## Hang handling inside RunSampleAndGetCoverage (fuzzer.cpp lines 264-272) -/

/-- The HANG branch of `Fuzzer::RunSampleAndGetCoverage` (fuzzer.cpp lines
264-272), embedded as a function of `save_hangs` and the current `num_hangs`:
it returns the new `num_hangs` and the filename (relative to `hangs_dir`) the
sample is saved under, if any.  In the source the save happens before the
increment. -/
def handleHang (save_hangs : Bool) (num_hangs : Nat) : Nat × Option String :=
  (num_hangs + 1,
   if save_hangs then some ("hang_" ++ Nat.repr num_hangs) else none)

/-! ## MagicOutputFilter (fuzzer.cpp lines 754-765) -/

/-- The byte-overwrite loop of `Fuzzer::MagicOutputFilter`: for each index
`i < magic.length`, stop if `i ≥ sample.length`, otherwise overwrite byte `i`
of the sample with byte `i` of the magic string. -/
def writeMagic : List Nat → List Nat → List Nat
  | s, [] => s
  | [], _ => []
  | _ :: s, m :: ms => m :: writeMagic s ms

/-- `Fuzzer::MagicOutputFilter` (fuzzer.cpp lines 754-765).  Returns `none`
when the C++ function returns `false` (the output sample is left untouched),
and `some out` with the written output sample when it returns `true`. -/
def MagicOutputFilter (original_sample magic : List Nat) : Option (List Nat) :=
  if magic.length ≤ original_sample.length ∧
      original_sample.take magic.length = magic then
    none
  else
    some (writeMagic original_sample magic)

lemma writeMagic_eq (s m : List Nat) :
    writeMagic s m = m.take (min m.length s.length) ++ s.drop (min m.length s.length) := by
  induction s generalizing m with
  | nil => cases m <;> simp [writeMagic]
  | cons a s ih =>
    cases m with
    | nil => simp [writeMagic]
    | cons b ms =>
      simp only [writeMagic, List.length_cons]
      rw [ih]
      have : min (ms.length + 1) (s.length + 1) = min ms.length s.length + 1 := by omega
      simp [this]

lemma writeMagic_length (s m : List Nat) : (writeMagic s m).length = s.length := by
  rw [writeMagic_eq]
  simp only [List.length_append, List.length_take, List.length_drop]
  omega

/-! ## RunSample stabilization (fuzzer.cpp lines 300-345) -/

/-- The retry loop of `Fuzzer::RunSample` (fuzzer.cpp lines 329-342),
embedded over the list of retry-run outcomes (one list element per loop
iteration the source would perform; the source performs SAMPLE_RETRY_TIMES
of them unless it exits early).  Returns the result together with
`some (stableCoverage, totalCoverage)` when the loop completed, or `none`
when a retry returned non-OK and the function returned early. -/
def retryLoop : Coverage → Coverage → List RunOutcome →
    RunResult × Option (Coverage × Coverage)
  | stable, total, [] => (RunResult.OK, some (stable, total))
  | stable, total, r :: rs =>
    if r.result ≠ RunResult.OK then (r.result, none)
    else retryLoop (CoverageIntersection stable r.cov) (MergeCoverage total r.cov) rs

/-- Outcome of the stabilization part of `Fuzzer::RunSample`: the returned
`RunResult` and, when the function reached the coverage-diff computation,
`some (stableCoverage, variableCoverage, totalCoverage)` as they stand right
before the `InterestingSample` call; `none` when the function returned
before computing the diff (and so never offered the sample for acceptance). -/
structure StabilizeOut where
  result : RunResult
  diff : Option (Coverage × Coverage × Coverage)
deriving DecidableEq

/-- The stabilization phase of `Fuzzer::RunSample` (fuzzer.cpp lines
300-345), embedded as a function of the initial run's outcome and the list
of retry outcomes. -/
def RunSampleStabilize (initial : RunOutcome) (retries : List RunOutcome) :
    StabilizeOut :=
  if initial.result ≠ RunResult.OK then ⟨initial.result, none⟩
  else if coverageEmpty initial.cov then ⟨initial.result, none⟩
  else
    match retryLoop initial.cov initial.cov retries with
    | (r, none) => ⟨r, none⟩
    | (_, some (stable, total)) =>
        ⟨RunResult.OK, some (stable, CoverageDifference stable total, total)⟩

/-- Intersection of a list of coverage sets, seeded with `c`. -/
def listInterFrom (c : Coverage) (l : List Coverage) : Coverage :=
  l.foldl (· ∩ ·) c

/-- Union of a list of coverage sets, seeded with `c`. -/
def listUnionFrom (c : Coverage) (l : List Coverage) : Coverage :=
  l.foldl (· ∪ ·) c

lemma retryLoop_all_ok (rs : List RunOutcome) (stable total : Coverage)
    (h : ∀ r ∈ rs, r.result = RunResult.OK) :
    retryLoop stable total rs =
      (RunResult.OK,
       some (listInterFrom stable (rs.map RunOutcome.cov),
             listUnionFrom total (rs.map RunOutcome.cov))) := by
  induction rs generalizing stable total with
  | nil => simp [retryLoop, listInterFrom, listUnionFrom]
  | cons r rs ih =>
    have hr : r.result = RunResult.OK := h r (List.mem_cons_self r rs)
    simp only [retryLoop, hr, ne_eq, not_true_eq_false, if_false, ite_false]
    rw [ih _ _ (fun q hq => h q (List.mem_cons_of_mem r hq))]
    simp [listInterFrom, listUnionFrom, CoverageIntersection, MergeCoverage]

lemma retryLoop_fail (pre : List RunOutcome) (r : RunOutcome)
    (post : List RunOutcome) (stable total : Coverage)
    (hpre : ∀ q ∈ pre, q.result = RunResult.OK)
    (hr : r.result ≠ RunResult.OK) :
    retryLoop stable total (pre ++ r :: post) = (r.result, none) := by
  induction pre generalizing stable total with
  | nil => simp [retryLoop, hr]
  | cons q pre ih =>
    have hq : q.result = RunResult.OK := hpre q (List.mem_cons_self q pre)
    simp only [List.cons_append, retryLoop, hq, ne_eq, not_true_eq_false, if_false,
      ite_false]
    exact ih _ _ (fun p hp => hpre p (List.mem_cons_of_mem q hp))

/-! ## Crash registry (fuzzer.cpp lines 217-261) -/

/-- The `unique_crashes` map (a `std::map<string,int>`), embedded as an
association list with unique keys; lookup and increment both act on the
first matching key. -/
abbrev CrashMap := List (String × Nat)

/-- Lookup of a crash name in `unique_crashes` (`unique_crashes.find`). -/
def lookupCrash : CrashMap → String → Option Nat
  | [], _ => none
  | (n, c) :: rest, name => if n = name then some c else lookupCrash rest name

/-- Increment of the stored count for a crash name (`crash_it->second++`). -/
def bumpCrash : CrashMap → String → CrashMap
  | [], _ => []
  | (n, c) :: rest, name =>
    if n = name then (n, c + 1) :: rest else (n, c) :: bumpCrash rest name

/-- The crash-registry state guarded by `crash_mutex`. -/
structure CrashState where
  unique_crashes : CrashMap
  num_crashes : Nat
  num_unique_crashes : Nat
deriving DecidableEq, Repr

/-- The crash-registry state at engine start (`Fuzzer::Run`). -/
def initCrashState : CrashState := ⟨[], 0, 0⟩

/-- Result of one crash-registry update: the new state, the `should_save_crash`
flag and the `duplicates` counter used in the saved filename. -/
structure CrashDecision where
  st : CrashState
  should_save : Bool
  duplicates : Nat
deriving DecidableEq, Repr

/-- The crash-registry critical section of `Fuzzer::RunSampleAndGetCoverage`
(fuzzer.cpp lines 230-246): `num_crashes` is always incremented; an unseen
name is inserted with count 1 (and `num_unique_crashes` incremented); a seen
name with count below `maxIdentical` (the MAX_IDENTICAL_CRASHES constant of
fuzzer.h, taken as a parameter) is bumped; otherwise nothing is saved.
`duplicates` stays at its initialization value 0 when nothing is saved. -/
def recordCrash (maxIdentical : Nat) (st : CrashState) (name : String) :
    CrashDecision :=
  let st1 : CrashState := { st with num_crashes := st.num_crashes + 1 }
  match lookupCrash st1.unique_crashes name with
  | none =>
      ⟨{ st1 with
          unique_crashes := (name, 1) :: st1.unique_crashes,
          num_unique_crashes := st1.num_unique_crashes + 1 }, true, 1⟩
  | some c =>
      if c < maxIdentical then
        ⟨{ st1 with unique_crashes := bumpCrash st1.unique_crashes name }, true, c + 1⟩
      else
        ⟨st1, false, 0⟩

/-- A whole run of classified crashes through the registry: folds
`recordCrash` over a list of crash names and collects, for each crash that
was saved, the `(crash_desc, duplicates)` pair naming the file
`<crash_desc>_<duplicates>` written to the crash directory. -/
def runCrashes (maxIdentical : Nat) : CrashState → List String →
    CrashState × List (String × Nat)
  | st, [] => (st, [])
  | st, name :: rest =>
    let d := recordCrash maxIdentical st name
    let acc := runCrashes maxIdentical d.st rest
    (acc.1, (if d.should_save then [(name, d.duplicates)] else []) ++ acc.2)

/-- The count the registry currently stores for a crash name (0 if unseen). -/
def crashCount (st : CrashState) (name : String) : Nat :=
  (lookupCrash st.unique_crashes name).getD 0

lemma runCrashes_cons_fst (maxIdentical : Nat) (st : CrashState) (name : String)
    (rest : List String) :
    (runCrashes maxIdentical st (name :: rest)).1 =
      (runCrashes maxIdentical (recordCrash maxIdentical st name).st rest).1 := rfl

lemma runCrashes_cons_snd (maxIdentical : Nat) (st : CrashState) (name : String)
    (rest : List String) :
    (runCrashes maxIdentical st (name :: rest)).2 =
      (if (recordCrash maxIdentical st name).should_save then
        [(name, (recordCrash maxIdentical st name).duplicates)] else []) ++
      (runCrashes maxIdentical (recordCrash maxIdentical st name).st rest).2 := rfl

lemma filter_saved_cons_self (name : String) (dup : Nat) (l : List (String × Nat)) :
    (((name, dup) :: l).filter (fun p => p.1 = name)).length
      = (l.filter (fun p => p.1 = name)).length + 1 := by
  simp [List.filter_cons]

lemma filter_saved_cons_ne (name other : String) (dup : Nat) (h : name ≠ other)
    (l : List (String × Nat)) :
    (((name, dup) :: l).filter (fun p => p.1 = other)).length
      = (l.filter (fun p => p.1 = other)).length := by
  simp [List.filter_cons, h]

lemma lookupCrash_bump_self (m : CrashMap) (name : String) :
    lookupCrash (bumpCrash m name) name =
      (lookupCrash m name).map (· + 1) := by
  induction m with
  | nil => simp [lookupCrash, bumpCrash]
  | cons p rest ih =>
    obtain ⟨n, c⟩ := p
    by_cases h : n = name
    · simp [lookupCrash, bumpCrash, h]
    · simp [lookupCrash, bumpCrash, h, ih]

lemma lookupCrash_bump_ne (m : CrashMap) (name other : String)
    (h : name ≠ other) :
    lookupCrash (bumpCrash m name) other = lookupCrash m other := by
  induction m with
  | nil => simp [lookupCrash, bumpCrash]
  | cons p rest ih =>
    obtain ⟨n, c⟩ := p
    by_cases hn : n = name
    · subst hn
      simp [lookupCrash, bumpCrash, h, Ne.symm h]
    · simp [lookupCrash, bumpCrash, hn, ih]

lemma crashCount_record_self (maxIdentical : Nat) (st : CrashState)
    (name : String) (hmax : 1 ≤ maxIdentical) (hcur : crashCount st name ≤ maxIdentical) :
    crashCount (recordCrash maxIdentical st name).st name =
      (if crashCount st name < maxIdentical then crashCount st name + 1
       else crashCount st name) ∧
    crashCount (recordCrash maxIdentical st name).st name ≤ maxIdentical := by
  have hpos : 0 < maxIdentical := hmax
  unfold crashCount at hcur ⊢
  unfold recordCrash
  cases hl : lookupCrash st.unique_crashes name with
  | none =>
    rw [hl] at hcur
    simp [hl, lookupCrash, hpos] <;> omega
  | some c =>
    rw [hl] at hcur
    simp only [Option.getD_some] at hcur
    by_cases hc : c < maxIdentical
    · simp [hl, lookupCrash_bump_self, hc] <;> omega
    · simp [hl, hc] <;> omega

lemma crashCount_record_ne (maxIdentical : Nat) (st : CrashState)
    (name other : String) (h : name ≠ other) :
    crashCount (recordCrash maxIdentical st name).st other = crashCount st other := by
  unfold crashCount recordCrash
  cases hl : lookupCrash st.unique_crashes name with
  | none => simp [hl, lookupCrash, h]
  | some c =>
    by_cases hc : c < maxIdentical
    · simp [hl, hc, lookupCrash_bump_ne _ _ _ h]
    · simp [hl, hc]

lemma recordCrash_save_count (maxIdentical : Nat) (st : CrashState)
    (name : String) (hmax : 1 ≤ maxIdentical) (hcur : crashCount st name ≤ maxIdentical) :
    ((recordCrash maxIdentical st name).should_save = true →
      (recordCrash maxIdentical st name).duplicates =
        crashCount (recordCrash maxIdentical st name).st name ∧
      crashCount (recordCrash maxIdentical st name).st name = crashCount st name + 1) ∧
    ((recordCrash maxIdentical st name).should_save = false →
      crashCount (recordCrash maxIdentical st name).st name = crashCount st name) := by
  unfold crashCount recordCrash
  cases hl : lookupCrash st.unique_crashes name with
  | none =>
    simp only [hl, lookupCrash]
    simp
  | some c =>
    by_cases hc : c < maxIdentical
    · simp [hl, hc, lookupCrash_bump_self]
    · simp [hl, hc]

/-- The invariant tying the saved crash files to the registry state: the
files saved so far for each name number exactly the stored count, each file's
duplicate index is in `[1, maxIdentical]`, and every stored count is at most
`maxIdentical`. -/
lemma runCrashes_invariant (maxIdentical : Nat) (hmax : 1 ≤ maxIdentical)
    (names : List String) (st : CrashState)
    (hst : ∀ name, crashCount st name ≤ maxIdentical) :
    (∀ name, crashCount (runCrashes maxIdentical st names).1 name ≤ maxIdentical) ∧
    (∀ name,
      ((runCrashes maxIdentical st names).2.filter (fun p => p.1 = name)).length
        + crashCount st name
        = crashCount (runCrashes maxIdentical st names).1 name) ∧
    (∀ p ∈ (runCrashes maxIdentical st names).2, 1 ≤ p.2 ∧ p.2 ≤ maxIdentical) := by
  induction names generalizing st with
  | nil =>
    refine ⟨fun name => hst name, fun name => by simp [runCrashes], by simp [runCrashes]⟩
  | cons name rest ih =>
    have hself := crashCount_record_self maxIdentical st name hmax (hst name)
    have hsave := recordCrash_save_count maxIdentical st name hmax (hst name)
    have hst1 : ∀ other, crashCount (recordCrash maxIdentical st name).st other ≤ maxIdentical := by
      intro other
      by_cases h : name = other
      · subst h; exact hself.2
      · rw [crashCount_record_ne maxIdentical st name other h]; exact hst other
    obtain ⟨ih1, ih2, ih3⟩ := ih (recordCrash maxIdentical st name).st hst1
    refine ⟨fun other => by rw [runCrashes_cons_fst]; exact ih1 other, ?_, ?_⟩
    · intro other
      have h2 := ih2 other
      rw [runCrashes_cons_fst, runCrashes_cons_snd]
      by_cases hs : (recordCrash maxIdentical st name).should_save = true
      · rw [if_pos hs, List.singleton_append]
        by_cases h : name = other
        · subst h
          rw [filter_saved_cons_self]
          have h1 := (hsave.1 hs).2
          omega
        · rw [filter_saved_cons_ne name other _ h]
          rw [crashCount_record_ne maxIdentical st name other h] at h2
          omega
      · rw [if_neg hs, List.nil_append]
        by_cases h : name = other
        · subst h
          have h1 := hsave.2 (Bool.eq_false_iff.mpr hs)
          omega
        · rw [crashCount_record_ne maxIdentical st name other h] at h2
          omega
    · intro p hp
      rw [runCrashes_cons_snd] at hp
      rcases List.mem_append.mp hp with hp | hp
      · by_cases hs : (recordCrash maxIdentical st name).should_save = true
        · rw [if_pos hs] at hp
          simp only [List.mem_singleton] at hp
          subst hp
          have h1 := (hsave.1 hs).1
          have h2 := (hsave.1 hs).2
          have h3 := hself.2
          dsimp only
          omega
        · rw [if_neg hs] at hp
          simp at hp
      · exact ih3 p hp

lemma runCrashes_num_crashes (maxIdentical : Nat) (names : List String)
    (st : CrashState) :
    (runCrashes maxIdentical st names).1.num_crashes
      = st.num_crashes + names.length := by
  induction names generalizing st with
  | nil => simp [runCrashes]
  | cons name rest ih =>
    simp only [runCrashes, List.length_cons]
    rw [ih]
    simp only [recordCrash]
    cases hl : lookupCrash { st with num_crashes := st.num_crashes + 1 }.unique_crashes name with
    | none => simp; omega
    | some c =>
      by_cases hc : c < maxIdentical <;> simp [hc] <;> omega

/-! ## TrimSample (fuzzer.cpp lines 401-438) -/

/-- The inner `while (trim_step >= test_sample.size) trim_step /= 2` loop of
`Fuzzer::TrimSample` (fuzzer.cpp lines 411-413).  The guard additionally
requires a positive step so the recursion is well-founded; the source only
reaches this loop with `size ≥ 2`, where the two guards agree. -/
def reduceStep (step size : Nat) : Nat :=
  if h : 0 < step ∧ size ≤ step then reduceStep (step / 2) size else step
termination_by step
decreasing_by
  exact Nat.div_lt_self h.1 (by omega)

lemma reduceStep_le (step size : Nat) : reduceStep step size ≤ step := by
  induction step using Nat.strong_induction_on with
  | _ step ih =>
    rw [reduceStep]
    split
    · next h =>
      exact le_trans (ih (step / 2) (Nat.div_lt_self h.1 (by omega)))
        (Nat.div_le_self _ _)
    · exact le_rfl

/-- The outer trimming loop of `Fuzzer::TrimSample` (fuzzer.cpp lines
409-433), embedded over sizes: the test sample is always the original sample
truncated to `test_size`, so the run oracle `run` maps a candidate size to
the outcome of executing the original sample truncated to that size (the
target is taken to behave as a function of the delivered bytes).  Returns
the final `trimmed_size`. -/
def trimLoop (run : Nat → RunOutcome) (stable : Coverage)
    (trim_step trimmed_size test_size : Nat) : Nat :=
  if h1 : test_size ≤ 1 then trimmed_size
  else if hts : reduceStep trim_step test_size = 0 then trimmed_size
  else if hok : (run (test_size - reduceStep trim_step test_size)).result
      ≠ RunResult.OK then trimmed_size
  else if hcon : CoverageContains
      (run (test_size - reduceStep trim_step test_size)).cov stable = false then
    if hhalf : reduceStep trim_step test_size / 2 = 0 then trimmed_size
    else trimLoop run stable (reduceStep trim_step test_size / 2)
      trimmed_size trimmed_size
  else
    trimLoop run stable (reduceStep trim_step test_size)
      (test_size - reduceStep trim_step test_size)
      (test_size - reduceStep trim_step test_size)
termination_by (trim_step, test_size)
decreasing_by
· have h1 := reduceStep_le trim_step test_size
  have h2 : reduceStep trim_step test_size / 2 < reduceStep trim_step test_size :=
    Nat.div_lt_self (Nat.pos_of_ne_zero hts) (by omega)
  exact Prod.Lex.left _ _ (by omega)
· have hle := reduceStep_le trim_step test_size
  rcases Nat.lt_or_eq_of_le hle with h | h
  · exact Prod.Lex.left _ _ h
  · have hpos : 0 < trim_step := h ▸ Nat.pos_of_ne_zero hts
    rw [h]
    exact Prod.Lex.right _ (by omega)

/-- `Fuzzer::TrimSample` (fuzzer.cpp lines 401-438), embedded over the byte
list of the sample; `trimStepInitial` stands for the TRIM_STEP_INITIAL
constant of fuzzer.h, which is not in src/. -/
def TrimSample (run : Nat → RunOutcome) (stable : Coverage)
    (trimStepInitial : Nat) (sample : List Nat) : List Nat :=
  if sample.length ≤ 1 then sample
  else
    let final := trimLoop run stable trimStepInitial sample.length sample.length
    if final < sample.length then sample.take final else sample

/-- The loop either leaves `trimmed_size` untouched or returns an accepted
size: one whose run returned OK with coverage containing the stable set. -/
lemma trimLoop_result (run : Nat → RunOutcome) (stable : Coverage)
    (trim_step trimmed_size test_size : Nat) :
    trimLoop run stable trim_step trimmed_size test_size = trimmed_size ∨
    ((run (trimLoop run stable trim_step trimmed_size test_size)).result
        = RunResult.OK ∧
     CoverageContains
        (run (trimLoop run stable trim_step trimmed_size test_size)).cov stable
        = true) := by
  induction trim_step, trimmed_size, test_size using trimLoop.induct run stable with
  | case1 trim_step trimmed_size test_size h1 =>
    rw [trimLoop, dif_pos h1]
    exact Or.inl rfl
  | case2 trim_step trimmed_size test_size h1 hts =>
    rw [trimLoop, dif_neg h1, dif_pos hts]
    exact Or.inl rfl
  | case3 trim_step trimmed_size test_size h1 hts hok =>
    rw [trimLoop, dif_neg h1, dif_neg hts, dif_pos hok]
    exact Or.inl rfl
  | case4 trim_step trimmed_size test_size h1 hts hok hcon hhalf =>
    rw [trimLoop, dif_neg h1, dif_neg hts, dif_neg hok, dif_pos hcon, dif_pos hhalf]
    exact Or.inl rfl
  | case5 trim_step trimmed_size test_size h1 hts hok hcon hhalf ih =>
    rw [trimLoop, dif_neg h1, dif_neg hts, dif_neg hok, dif_pos hcon, dif_neg hhalf]
    exact ih
  | case6 trim_step trimmed_size test_size h1 hts hok hcon ih =>
    rw [trimLoop, dif_neg h1, dif_neg hts, dif_neg hok, dif_neg hcon]
    rcases ih with ih | ih
    · rw [ih]
      right
      constructor
      · exact not_ne_iff.mp hok
      · exact Bool.eq_true_of_ne_false hcon
    · exact Or.inr ih

/-! ## Global state machine and scheduler (fuzzer.cpp lines 468-560) -/

/-- The engine's global phase. -/
inductive Phase
| INPUT_SAMPLE_PROCESSING
| SERVER_SAMPLE_PROCESSING
| FUZZING
deriving DecidableEq, Repr

/-- The job types dispensed to worker threads. -/
inductive JobType
| WAIT
| FUZZ
| PROCESS_SAMPLE
deriving DecidableEq, Repr

/-- A dispensed job (`FuzzerJob` from fuzzer.h, not in src/; the fields the
scheduler writes). -/
structure FuzzerJob where
  type : JobType
  entry : Option SampleQueueEntry := none
  sample : Option (List Nat) := none
deriving DecidableEq

/-- The shared engine state read and written by `SynchronizeAndGetJob`
(samples are their byte contents; `input_files` holds the contents of the
remaining input files, standing in for `Sample::Load` on their paths). -/
structure FuzzerGlobal where
  state : Phase
  input_files : List (List Nat)
  server_samples : List (List Nat)
  samples_pending : Nat
  sample_queue : List SampleQueueEntry
  min_priority : Int
  fuzzer_coverage : Coverage
  hasServer : Bool
  last_server_update_time_ms : Nat
  num_samples : Nat
  total_execs : Nat
deriving DecidableEq

/-- `server_update_interval_ms`, set in `Fuzzer::ParseOptions`
(fuzzer.cpp line 41). -/
def server_update_interval_ms : Nat := 5 * 60 * 1000

/-- Modelled from the spec: popping the priority queue (`sample_queue.top()`
then `pop()`); the comparator lives in fuzzer.h, the spec says the entry
with minimal priority is dequeued. -/
def popMinQueue : List SampleQueueEntry →
    Option (SampleQueueEntry × List SampleQueueEntry)
  | [] => none
  | e :: es =>
    match popMinQueue es with
    | none => some (e, [])
    | some (m, rest) =>
      if e.priority ≤ m.priority then some (e, es) else some (m, e :: rest)

/-- The FUZZING-phase server pull of `Fuzzer::SynchronizeAndGetJob`
(fuzzer.cpp lines 482-490): when fuzzing with a server configured and the
update interval elapsed, pull a batch of server samples (`batch` stands for
what `server->GetUpdates` appends to `server_samples`) and transition to
SERVER_SAMPLE_PROCESSING. -/
def fuzzingServerPull (now : Nat) (batch : List (List Nat)) (fz : FuzzerGlobal) :
    FuzzerGlobal :=
  if fz.state = Phase.FUZZING ∧ fz.hasServer = true ∧
      fz.last_server_update_time_ms + server_update_interval_ms < now then
    { fz with
        last_server_update_time_ms := now,
        server_samples := fz.server_samples ++ batch,
        state := Phase.SERVER_SAMPLE_PROCESSING }
  else fz

/-- The INPUT_SAMPLE_PROCESSING transition of `Fuzzer::SynchronizeAndGetJob`
(fuzzer.cpp lines 492-510): once the input files are drained and no samples
are pending, an empty queue is the fatal "No interesting input files" error
(`none`); with a server, the current `fuzzer_coverage` is reported (collected
in the returned list), a batch of server samples is pulled, and the state
becomes SERVER_SAMPLE_PROCESSING; without a server the state becomes
FUZZING. -/
def inputPhaseStep (now : Nat) (batch : List (List Nat)) (fz : FuzzerGlobal) :
    Option (FuzzerGlobal × List Coverage) :=
  if fz.state = Phase.INPUT_SAMPLE_PROCESSING ∧ fz.input_files = [] ∧
      fz.samples_pending = 0 then
    if fz.sample_queue = [] then none
    else if fz.hasServer then
      some ({ fz with
                last_server_update_time_ms := now,
                server_samples := fz.server_samples ++ batch,
                state := Phase.SERVER_SAMPLE_PROCESSING },
            [fz.fuzzer_coverage])
    else some ({ fz with state := Phase.FUZZING }, [])
  else some (fz, [])

/-- The SERVER_SAMPLE_PROCESSING drain of `Fuzzer::SynchronizeAndGetJob`
(fuzzer.cpp lines 512-516). -/
def serverDrainStep (fz : FuzzerGlobal) : FuzzerGlobal :=
  if fz.state = Phase.SERVER_SAMPLE_PROCESSING ∧ fz.server_samples = [] ∧
      fz.samples_pending = 0 then
    { fz with state := Phase.FUZZING }
  else fz

/-- The job-dispensing tail of `Fuzzer::SynchronizeAndGetJob` (fuzzer.cpp
lines 518-557): by the (possibly just updated) state, pop a queue entry for
a FUZZ job (lowering `min_priority` to the popped priority if smaller), pop
an input file or a server sample for a PROCESS_SAMPLE job (input samples
larger than `maxSampleSize`, the MAX_SAMPLE_SIZE constant of fuzzer.h, are
trimmed), or WAIT. -/
def dispatchJob (maxSampleSize : Nat) (fz : FuzzerGlobal) :
    FuzzerGlobal × FuzzerJob :=
  match fz.state with
  | Phase.FUZZING =>
    match popMinQueue fz.sample_queue with
    | none => (fz, { type := JobType.WAIT })
    | some (e, rest) =>
      ({ fz with
          sample_queue := rest,
          min_priority :=
            if e.priority < fz.min_priority then e.priority else fz.min_priority },
       { type := JobType.FUZZ, entry := some e })
  | Phase.INPUT_SAMPLE_PROCESSING =>
    match fz.input_files with
    | [] => (fz, { type := JobType.WAIT })
    | f :: fs =>
      ({ fz with input_files := fs, samples_pending := fz.samples_pending + 1 },
       { type := JobType.PROCESS_SAMPLE,
         sample := some (if maxSampleSize < f.length then f.take maxSampleSize else f) })
  | Phase.SERVER_SAMPLE_PROCESSING =>
    match fz.server_samples with
    | [] => (fz, { type := JobType.WAIT })
    | s :: ss =>
      ({ fz with server_samples := ss, samples_pending := fz.samples_pending + 1 },
       { type := JobType.PROCESS_SAMPLE, sample := some s })

/-- The observable outcome of one `SynchronizeAndGetJob` call: the new
engine state, the dispensed job, and the coverage reports sent to the server
during the call. -/
structure SyncResult where
  fz : FuzzerGlobal
  job : FuzzerJob
  reported : List Coverage
deriving DecidableEq

/-- `Fuzzer::SynchronizeAndGetJob` (fuzzer.cpp lines 468-560), composed from
its three state-transition blocks and the dispensing tail; `none` models the
fatal "No interesting input files" abort. -/
def SynchronizeAndGetJob (now : Nat) (batch : List (List Nat))
    (maxSampleSize : Nat) (fz : FuzzerGlobal) : Option SyncResult :=
  match inputPhaseStep now batch (fuzzingServerPull now batch fz) with
  | none => none
  | some (fz1, reports) =>
    let fz2 := serverDrainStep fz1
    let out := dispatchJob maxSampleSize fz2
    some ⟨out.1, out.2, reports⟩

lemma dispatchJob_fuzz_state (maxSampleSize : Nat) (fz : FuzzerGlobal)
    (h : (dispatchJob maxSampleSize fz).2.type = JobType.FUZZ) :
    (dispatchJob maxSampleSize fz).1.state = Phase.FUZZING := by
  cases hs : fz.state with
  | FUZZING =>
    cases hp : popMinQueue fz.sample_queue with
    | none => simp [dispatchJob, hs, hp] at h
    | some p => simp [dispatchJob, hs, hp]
  | INPUT_SAMPLE_PROCESSING =>
    cases hf : fz.input_files with
    | nil => simp [dispatchJob, hs, hf] at h
    | cons f fs => simp [dispatchJob, hs, hf] at h
  | SERVER_SAMPLE_PROCESSING =>
    cases hf : fz.server_samples with
    | nil => simp [dispatchJob, hs, hf] at h
    | cons s ss => simp [dispatchJob, hs, hf] at h

lemma dispatchJob_entry_minPriority (maxSampleSize : Nat) (fz : FuzzerGlobal)
    (e : SampleQueueEntry)
    (h : (dispatchJob maxSampleSize fz).2.entry = some e) :
    (dispatchJob maxSampleSize fz).1.min_priority ≤ e.priority := by
  cases hs : fz.state with
  | FUZZING =>
    cases hp : popMinQueue fz.sample_queue with
    | none => simp [dispatchJob, hs, hp] at h
    | some p =>
      obtain ⟨m, rest⟩ := p
      simp only [dispatchJob, hs, hp] at h ⊢
      have : m = e := by simpa using h
      subst this
      by_cases hlt : m.priority < fz.min_priority
      · simp [hlt]
      · simp [hlt]
        omega
  | INPUT_SAMPLE_PROCESSING =>
    cases hf : fz.input_files with
    | nil => simp [dispatchJob, hs, hf] at h
    | cons f fs => simp [dispatchJob, hs, hf] at h
  | SERVER_SAMPLE_PROCESSING =>
    cases hf : fz.server_samples with
    | nil => simp [dispatchJob, hs, hf] at h
    | cons s ss => simp [dispatchJob, hs, hf] at h

/-! ## Persistence (fuzzer.cpp lines 657-721) -/

/-- The contents of `state.dat`: the three header fields followed by the
coverage set.  The byte-level encoding (`fwrite`/`WriteCoverageBinary`) is
opaque and, per the spec, symmetric with the read side, so the file is
embedded as the tuple of values it stores. -/
structure StateFile where
  num_samples : Nat
  total_execs : Nat
  min_priority : Int
  coverage : Coverage
deriving DecidableEq

/-- `Fuzzer::SaveState` (fuzzer.cpp lines 657-680): returns the written
snapshot, or `none` when nothing is written because the state is
INPUT_SAMPLE_PROCESSING. -/
def SaveState (fz : FuzzerGlobal) : Option StateFile :=
  if fz.state = Phase.INPUT_SAMPLE_PROCESSING then none
  else some ⟨fz.num_samples, fz.total_execs, fz.min_priority, fz.fuzzer_coverage⟩

/-- Zero-padding to five digits, as `sprintf("%05lld", i)` produces. -/
def pad5 (i : Nat) : String :=
  let s := Nat.repr i
  String.mk (List.replicate (5 - s.length) '0') ++ s

/-- The on-disk name of corpus sample `i` (relative to `sample_dir`). -/
def sampleFileName (i : Nat) : String := "sample_" ++ pad5 i

/-- The engine fields `Fuzzer::RestoreState` writes. -/
structure RestoredState where
  num_samples : Nat
  total_execs : Nat
  min_priority : Int
  fuzzer_coverage : Coverage
  sample_queue : List SampleQueueEntry
deriving DecidableEq

/-- `Fuzzer::RestoreState` (fuzzer.cpp lines 682-721): reads back the header
fields and the coverage set in the order `SaveState` wrote them, then for
each `i` in `0..num_samples-1` loads `sample_<i:05>` (modelled by the `disk`
map from filename to contents) and pushes a queue entry with
`priority = min_priority` and an uninitialized mutator context. -/
def RestoreState (file : StateFile) (disk : String → List Nat) : RestoredState :=
  { num_samples := file.num_samples
    total_execs := file.total_execs
    min_priority := file.min_priority
    fuzzer_coverage := file.coverage
    sample_queue := (List.range file.num_samples).map fun i =>
      { sample := disk (sampleFileName i)
        context_initialized := false
        priority := file.min_priority
        sample_index := i } }

/-! ## Claim theorems -/

/-- C1: `InterestingSample` computes `new_stable = stableCoverage \
fuzzer_coverage` and `new_variable = variableCoverage \ fuzzer_coverage`,
merges both diffs into `fuzzer_coverage`, rewrites the caller's coverage sets
in place to those diffs, and returns true iff `new_stable` is non-empty; in
particular, whenever the variable diff alone is non-empty but the stable diff
is empty, it returns false. -/
theorem interestingSample_spec (fc st va : Coverage) :
    (InterestingSample fc st va).stableOut = st \ fc ∧
    (InterestingSample fc st va).variableOut = va \ fc ∧
    (InterestingSample fc st va).fuzzer_coverage = fc ∪ (st \ fc) ∪ (va \ fc) ∧
    ((InterestingSample fc st va).accepted = true ↔ st \ fc ≠ ∅) ∧
    (va \ fc ≠ ∅ → st \ fc = ∅ → (InterestingSample fc st va).accepted = false) := by
  refine ⟨rfl, rfl, rfl, ?_, ?_⟩
  · simp [InterestingSample, coverageEmpty, CoverageDifference]
  · intro _ hst
    simp [InterestingSample, coverageEmpty, CoverageDifference, hst]

/-- Witness for C1: with `fuzzer_coverage = ∅`, an empty stable set and the
variable set `{(0,0)}`, the variable diff is non-empty but the stable diff is
empty, and the sample is rejected. -/
theorem interestingSample_spec_witness :
    (InterestingSample ∅ ∅ {((0 : Nat), (0 : Nat))}).accepted = false :=
  (interestingSample_spec ∅ ∅ {((0 : Nat), (0 : Nat))}).2.2.2.2 (by decide) (by decide)

/-- C2: when the initial execution returns OK with non-empty coverage and
every retry returns OK, `RunSample` computes stable coverage as the
intersection of all runs' coverage, total coverage as the union of all runs'
coverage, and variable coverage as total \ stable; if the initial result is
not OK, or the initial coverage is empty, or some retry returns non-OK, it
returns that result with no diff computed (the sample is never offered for
acceptance).  The list of retry outcomes has one element per loop iteration;
the source performs SAMPLE_RETRY_TIMES iterations (a fuzzer.h constant not in
src/), so the statement quantifies over retry lists of every length. -/
theorem runSampleStabilize_spec (initial : RunOutcome) (retries : List RunOutcome) :
    (initial.result ≠ RunResult.OK →
      RunSampleStabilize initial retries = ⟨initial.result, none⟩) ∧
    (initial.cov = ∅ →
      RunSampleStabilize initial retries = ⟨initial.result, none⟩) ∧
    (initial.result = RunResult.OK → initial.cov ≠ ∅ →
      (∀ r ∈ retries, r.result = RunResult.OK) →
      RunSampleStabilize initial retries =
        ⟨RunResult.OK,
         some (listInterFrom initial.cov (retries.map RunOutcome.cov),
               listUnionFrom initial.cov (retries.map RunOutcome.cov) \
                 listInterFrom initial.cov (retries.map RunOutcome.cov),
               listUnionFrom initial.cov (retries.map RunOutcome.cov))⟩) ∧
    (∀ pre r post, retries = pre ++ r :: post →
      (∀ q ∈ pre, q.result = RunResult.OK) → r.result ≠ RunResult.OK →
      initial.result = RunResult.OK → initial.cov ≠ ∅ →
      RunSampleStabilize initial retries = ⟨r.result, none⟩) := by
  refine ⟨?_, ?_, ?_, ?_⟩
  · intro h
    simp [RunSampleStabilize, h]
  · intro h
    by_cases hr : initial.result = RunResult.OK
    · simp [RunSampleStabilize, hr, coverageEmpty, h]
    · simp [RunSampleStabilize, hr]
  · intro hr hc hok
    rw [RunSampleStabilize, if_neg (by simp [hr]),
      if_neg (by simp [coverageEmpty, hc]), retryLoop_all_ok retries _ _ hok]
    rfl
  · intro pre r post hsplit hpre hr hinit hc
    rw [RunSampleStabilize, if_neg (by simp [hinit]),
      if_neg (by simp [coverageEmpty, hc]), hsplit,
      retryLoop_fail pre r post _ _ hpre hr]

/-- Witness for C2: a concrete initial run with coverage `{(0,0), (1,1)}`
and one retry with coverage `{(0,0), (2,2)}` yields stable `{(0,0)}`, total
`{(0,0), (1,1), (2,2)}` and variable `total \ stable`. -/
theorem runSampleStabilize_spec_witness :
    RunSampleStabilize ⟨RunResult.OK, {((0 : Nat), (0 : Nat)), ((1 : Nat), (1 : Nat))}⟩
        [⟨RunResult.OK, {((0 : Nat), (0 : Nat)), ((2 : Nat), (2 : Nat))}⟩] =
      ⟨RunResult.OK,
       some (listInterFrom {((0 : Nat), (0 : Nat)), ((1 : Nat), (1 : Nat))}
               [{((0 : Nat), (0 : Nat)), ((2 : Nat), (2 : Nat))}],
             listUnionFrom {((0 : Nat), (0 : Nat)), ((1 : Nat), (1 : Nat))}
               [{((0 : Nat), (0 : Nat)), ((2 : Nat), (2 : Nat))}] \
               listInterFrom {((0 : Nat), (0 : Nat)), ((1 : Nat), (1 : Nat))}
                 [{((0 : Nat), (0 : Nat)), ((2 : Nat), (2 : Nat))}],
             listUnionFrom {((0 : Nat), (0 : Nat)), ((1 : Nat), (1 : Nat))}
               [{((0 : Nat), (0 : Nat)), ((2 : Nat), (2 : Nat))}])⟩ :=
  (runSampleStabilize_spec
      ⟨RunResult.OK, {((0 : Nat), (0 : Nat)), ((1 : Nat), (1 : Nat))}⟩
      [⟨RunResult.OK, {((0 : Nat), (0 : Nat)), ((2 : Nat), (2 : Nat))}⟩]).2.2.1
    rfl (by decide) (by decide)

/-- C3: the crash registry yields `(true, 1)` for an unseen name (storing
count 1 and incrementing `num_unique_crashes`), `(true, new_count)` for a
seen name whose count is below the cap, and `should_save = false` otherwise;
`num_crashes` is incremented on every classified crash regardless of the save
decision, and over any sequence of classified crashes at most `maxIdentical`
files named `<name>_<n>` with `n ∈ [1, maxIdentical]` are ever saved for any
one crash name (`maxIdentical` stands for the MAX_IDENTICAL_CRASHES constant
of fuzzer.h, which is not in src/). -/
theorem crashRegistry_spec (maxIdentical : Nat) (hmax : 1 ≤ maxIdentical) :
    (∀ st name, lookupCrash st.unique_crashes name = none →
      (recordCrash maxIdentical st name).should_save = true ∧
      (recordCrash maxIdentical st name).duplicates = 1 ∧
      lookupCrash (recordCrash maxIdentical st name).st.unique_crashes name = some 1 ∧
      (recordCrash maxIdentical st name).st.num_unique_crashes
        = st.num_unique_crashes + 1 ∧
      (recordCrash maxIdentical st name).st.num_crashes = st.num_crashes + 1) ∧
    (∀ st name c, lookupCrash st.unique_crashes name = some c → c < maxIdentical →
      (recordCrash maxIdentical st name).should_save = true ∧
      (recordCrash maxIdentical st name).duplicates = c + 1 ∧
      lookupCrash (recordCrash maxIdentical st name).st.unique_crashes name
        = some (c + 1) ∧
      (recordCrash maxIdentical st name).st.num_unique_crashes
        = st.num_unique_crashes ∧
      (recordCrash maxIdentical st name).st.num_crashes = st.num_crashes + 1) ∧
    (∀ st name c, lookupCrash st.unique_crashes name = some c → maxIdentical ≤ c →
      (recordCrash maxIdentical st name).should_save = false ∧
      (recordCrash maxIdentical st name).st.unique_crashes = st.unique_crashes ∧
      (recordCrash maxIdentical st name).st.num_unique_crashes
        = st.num_unique_crashes ∧
      (recordCrash maxIdentical st name).st.num_crashes = st.num_crashes + 1) ∧
    (∀ names name,
      ((runCrashes maxIdentical initCrashState names).2.filter
          (fun p => p.1 = name)).length ≤ maxIdentical) ∧
    (∀ names p, p ∈ (runCrashes maxIdentical initCrashState names).2 →
      1 ≤ p.2 ∧ p.2 ≤ maxIdentical) ∧
    (∀ names,
      (runCrashes maxIdentical initCrashState names).1.num_crashes = names.length) := by
  have hinit : ∀ name, crashCount initCrashState name ≤ maxIdentical := by
    intro name
    simp [crashCount, initCrashState, lookupCrash]
  refine ⟨?_, ?_, ?_, ?_, ?_, ?_⟩
  · intro st name hl
    simp [recordCrash, hl, lookupCrash]
  · intro st name c hl hc
    simp [recordCrash, hl, hc, lookupCrash_bump_self]
  · intro st name c hl hc
    simp [recordCrash, hl, Nat.not_lt.mpr hc]
  · intro names name
    obtain ⟨h1, h2, _⟩ := runCrashes_invariant maxIdentical hmax names initCrashState hinit
    have := h2 name
    have h0 : crashCount initCrashState name = 0 := by
      simp [crashCount, initCrashState, lookupCrash]
    have := h1 name
    omega
  · intro names p hp
    exact (runCrashes_invariant maxIdentical hmax names initCrashState hinit).2.2 p hp
  · intro names
    have := runCrashes_num_crashes maxIdentical names initCrashState
    simpa [initCrashState] using this

/-- Witness for C3: with a cap of 2, the first crash with a fresh name is
saved as duplicate 1, and a trace of four identical crashes saves exactly
two files while counting four crashes. -/
theorem crashRegistry_spec_witness :
    (recordCrash 2 initCrashState "crash").should_save = true ∧
    (recordCrash 2 initCrashState "crash").duplicates = 1 ∧
    ((runCrashes 2 initCrashState ["a", "a", "a", "a"]).2.filter
        (fun p => p.1 = "a")).length ≤ 2 ∧
    (runCrashes 2 initCrashState ["a", "a", "a", "a"]).1.num_crashes = 4 :=
  have h := (crashRegistry_spec 2 (by decide)).1 initCrashState "crash" rfl
  ⟨h.1, h.2.1,
   (crashRegistry_spec 2 (by decide)).2.2.2.1 ["a", "a", "a", "a"] "a",
   (crashRegistry_spec 2 (by decide)).2.2.2.2.2 ["a", "a", "a", "a"]⟩

/-- C4: `TrimSample` never increases the sample's size, only truncates from
the tail (the result is a prefix of the original sample), and whenever it
actually shrank the sample, the final size is one that was accepted during
the search: its run returned OK with coverage containing the stable set.
The back-off mechanics (halving `trim_step`, stopping at 0, resetting the
test sample to the last accepted size, stopping on any non-OK run) are the
`trimLoop` definition itself. -/
theorem trimSample_spec (run : Nat → RunOutcome) (stable : Coverage)
    (trimStepInitial : Nat) (sample : List Nat) :
    (TrimSample run stable trimStepInitial sample).length ≤ sample.length ∧
    TrimSample run stable trimStepInitial sample
      = sample.take (TrimSample run stable trimStepInitial sample).length ∧
    ((TrimSample run stable trimStepInitial sample).length < sample.length →
      (run (TrimSample run stable trimStepInitial sample).length).result
        = RunResult.OK ∧
      CoverageContains
        (run (TrimSample run stable trimStepInitial sample).length).cov stable
        = true) := by
  by_cases hlen : sample.length ≤ 1
  · rw [TrimSample, if_pos hlen]
    refine ⟨le_rfl, (List.take_length sample).symm, fun h => absurd h (by omega)⟩
  · rw [TrimSample, if_neg hlen]
    by_cases hf : trimLoop run stable trimStepInitial sample.length sample.length
        < sample.length
    · rw [if_pos hf]
      have hlentake : (sample.take
          (trimLoop run stable trimStepInitial sample.length sample.length)).length
          = trimLoop run stable trimStepInitial sample.length sample.length := by
        rw [List.length_take]
        omega
      refine ⟨by rw [hlentake]; omega, by rw [hlentake], ?_⟩
      intro _
      rw [hlentake]
      rcases trimLoop_result run stable trimStepInitial sample.length sample.length
        with h | h
      · omega
      · exact h
    · rw [if_neg hf]
      refine ⟨le_rfl, (List.take_length sample).symm, fun h => absurd h (by omega)⟩

/-- Witness for C4: a concrete instance with an always-OK, always-containing
run oracle on a two-byte sample; the conjunction is fully instantiated. -/
theorem trimSample_spec_witness :
    (TrimSample (fun _ => ⟨RunResult.OK, ∅⟩) ∅ 1 [0, 0]).length
      ≤ ([0, 0] : List Nat).length ∧
    TrimSample (fun _ => ⟨RunResult.OK, ∅⟩) ∅ 1 [0, 0]
      = ([0, 0] : List Nat).take
          (TrimSample (fun _ => ⟨RunResult.OK, ∅⟩) ∅ 1 [0, 0]).length ∧
    ((TrimSample (fun _ => ⟨RunResult.OK, ∅⟩) ∅ 1 [0, 0]).length
        < ([0, 0] : List Nat).length →
      ((fun _ : Nat => (⟨RunResult.OK, ∅⟩ : RunOutcome))
          (TrimSample (fun _ => ⟨RunResult.OK, ∅⟩) ∅ 1 [0, 0]).length).result
        = RunResult.OK ∧
      CoverageContains
        ((fun _ : Nat => (⟨RunResult.OK, ∅⟩ : RunOutcome))
            (TrimSample (fun _ => ⟨RunResult.OK, ∅⟩) ∅ 1 [0, 0]).length).cov ∅
        = true) :=
  trimSample_spec (fun _ => ⟨RunResult.OK, ∅⟩) ∅ 1 [0, 0]

/-- C5: `AdjustSamplePriority` sets the priority to exactly 0 when the run
found new coverage, and otherwise decreases it by exactly 1 (strictly
decreasing); all other entry fields are unchanged. -/
theorem adjustSamplePriority_spec (e : SampleQueueEntry) :
    (AdjustSamplePriority e true).priority = 0 ∧
    (AdjustSamplePriority e false).priority = e.priority - 1 ∧
    (AdjustSamplePriority e false).priority < e.priority ∧
    (∀ b : Bool,
      (AdjustSamplePriority e b).sample = e.sample ∧
      (AdjustSamplePriority e b).context_initialized = e.context_initialized ∧
      (AdjustSamplePriority e b).sample_index = e.sample_index ∧
      (AdjustSamplePriority e b).num_runs = e.num_runs ∧
      (AdjustSamplePriority e b).num_newcoverage = e.num_newcoverage ∧
      (AdjustSamplePriority e b).num_hangs = e.num_hangs ∧
      (AdjustSamplePriority e b).num_crashes = e.num_crashes) := by
  refine ⟨by simp [AdjustSamplePriority], by simp [AdjustSamplePriority], ?_, ?_⟩
  · simp [AdjustSamplePriority]
  · intro b; cases b <;> simp [AdjustSamplePriority]

/-- C6: in the INPUT_SAMPLE_PROCESSING phase, once `input_files` is empty
and `samples_pending` is 0, job acquisition transitions: an empty sample
queue is the fatal error; otherwise with a server the current
`fuzzer_coverage` is reported, a batch of server samples is pulled and the
state becomes SERVER_SAMPLE_PROCESSING, and without a server the state
becomes FUZZING.  Moreover no FUZZ job is ever dispensed unless the state at
dispense time is FUZZING. -/
theorem syncAndGetJob_spec (now : Nat) (batch : List (List Nat))
    (maxSampleSize : Nat) (fz : FuzzerGlobal) :
    (fz.state = Phase.INPUT_SAMPLE_PROCESSING → fz.input_files = [] →
      fz.samples_pending = 0 →
      ((fz.sample_queue = [] →
          SynchronizeAndGetJob now batch maxSampleSize fz = none) ∧
       (fz.sample_queue ≠ [] → fz.hasServer = true →
          inputPhaseStep now batch fz =
            some ({ fz with
                      last_server_update_time_ms := now,
                      server_samples := fz.server_samples ++ batch,
                      state := Phase.SERVER_SAMPLE_PROCESSING },
                  [fz.fuzzer_coverage]) ∧
          SynchronizeAndGetJob now batch maxSampleSize fz ≠ none) ∧
       (fz.sample_queue ≠ [] → fz.hasServer = false →
          inputPhaseStep now batch fz =
            some ({ fz with state := Phase.FUZZING }, []) ∧
          SynchronizeAndGetJob now batch maxSampleSize fz ≠ none))) ∧
    (∀ r, SynchronizeAndGetJob now batch maxSampleSize fz = some r →
      r.job.type = JobType.FUZZ → r.fz.state = Phase.FUZZING) := by
  constructor
  · intro hstate hfiles hpending
    have hpull : fuzzingServerPull now batch fz = fz := by
      rw [fuzzingServerPull, if_neg]
      simp [hstate]
    refine ⟨?_, ?_, ?_⟩
    · intro hq
      rw [SynchronizeAndGetJob, hpull, inputPhaseStep,
        if_pos ⟨hstate, hfiles, hpending⟩, if_pos hq]
    · intro hq hserver
      constructor
      · rw [inputPhaseStep, if_pos ⟨hstate, hfiles, hpending⟩, if_neg hq, if_pos hserver]
      · rw [SynchronizeAndGetJob, hpull, inputPhaseStep,
          if_pos ⟨hstate, hfiles, hpending⟩, if_neg hq, if_pos hserver]
        simp
    · intro hq hserver
      constructor
      · rw [inputPhaseStep, if_pos ⟨hstate, hfiles, hpending⟩, if_neg hq,
          if_neg (by simp [hserver])]
      · rw [SynchronizeAndGetJob, hpull, inputPhaseStep,
          if_pos ⟨hstate, hfiles, hpending⟩, if_neg hq, if_neg (by simp [hserver])]
        simp
  · intro r hr htype
    rw [SynchronizeAndGetJob] at hr
    cases hstep : inputPhaseStep now batch (fuzzingServerPull now batch fz) with
    | none => rw [hstep] at hr; exact absurd hr (by simp)
    | some p =>
      obtain ⟨fz1, reports⟩ := p
      rw [hstep] at hr
      simp only [Option.some.injEq] at hr
      subst hr
      exact dispatchJob_fuzz_state maxSampleSize (serverDrainStep fz1) htype

/-- Concrete engine state for exercising the C6 input-drain transition:
input files drained, nothing pending, one corpus entry queued, no server. -/
def inputDrainedState : FuzzerGlobal :=
  { state := Phase.INPUT_SAMPLE_PROCESSING
    input_files := []
    server_samples := []
    samples_pending := 0
    sample_queue := [{ sample := [0], context_initialized := true,
                       priority := 0, sample_index := 0 }]
    min_priority := 1000
    fuzzer_coverage := ∅
    hasServer := false
    last_server_update_time_ms := 0
    num_samples := 1
    total_execs := 1 }

/-- Witness for C6: on `inputDrainedState` (no server, non-empty queue) the
transition lands in FUZZING and the acquisition does not abort. -/
theorem syncAndGetJob_spec_witness :
    inputPhaseStep 7 [] inputDrainedState =
      some ({ inputDrainedState with state := Phase.FUZZING }, []) ∧
    SynchronizeAndGetJob 7 [] 1000 inputDrainedState ≠ none :=
  ((syncAndGetJob_spec 7 [] 1000 inputDrainedState).1 rfl rfl rfl).2.2
    (by decide) rfl

/-- C7: `SaveState` returns without writing during INPUT_SAMPLE_PROCESSING;
otherwise a snapshot followed by a restore reproduces `num_samples`,
`total_execs`, `min_priority` and `fuzzer_coverage` exactly, and rebuilds the
queue with one entry per index `i` in `0..num_samples-1` loaded from
`sample_<i:05>`, each with `priority = min_priority` and an uninitialized
mutator context. -/
theorem saveRestore_roundtrip (fz : FuzzerGlobal) (disk : String → List Nat) :
    (fz.state = Phase.INPUT_SAMPLE_PROCESSING → SaveState fz = none) ∧
    (fz.state ≠ Phase.INPUT_SAMPLE_PROCESSING →
      ∃ f, SaveState fz = some f ∧
        (RestoreState f disk).num_samples = fz.num_samples ∧
        (RestoreState f disk).total_execs = fz.total_execs ∧
        (RestoreState f disk).min_priority = fz.min_priority ∧
        (RestoreState f disk).fuzzer_coverage = fz.fuzzer_coverage ∧
        (RestoreState f disk).sample_queue =
          (List.range fz.num_samples).map (fun i =>
            { sample := disk (sampleFileName i)
              context_initialized := false
              priority := fz.min_priority
              sample_index := i })) := by
  constructor
  · intro h
    simp [SaveState, h]
  · intro h
    refine ⟨⟨fz.num_samples, fz.total_execs, fz.min_priority, fz.fuzzer_coverage⟩,
      ?_, rfl, rfl, rfl, rfl, rfl⟩
    simp [SaveState, h]

/-- Concrete engine state for the C7 witness: two corpus samples, snapshot
enabled because the state is FUZZING. -/
def snapshotState : FuzzerGlobal :=
  { state := Phase.FUZZING
    input_files := []
    server_samples := []
    samples_pending := 0
    sample_queue := []
    min_priority := -3
    fuzzer_coverage := {((1 : Nat), (2 : Nat))}
    hasServer := false
    last_server_update_time_ms := 0
    num_samples := 2
    total_execs := 40 }

/-- Witness for C7: snapshotting `snapshotState` and restoring against a
disk holding `[5]` for every sample file reproduces all four fields and the
two-entry queue. -/
theorem saveRestore_roundtrip_witness :
    ∃ f, SaveState snapshotState = some f ∧
      (RestoreState f (fun _ => [5])).num_samples = snapshotState.num_samples ∧
      (RestoreState f (fun _ => [5])).total_execs = snapshotState.total_execs ∧
      (RestoreState f (fun _ => [5])).min_priority = snapshotState.min_priority ∧
      (RestoreState f (fun _ => [5])).fuzzer_coverage = snapshotState.fuzzer_coverage ∧
      (RestoreState f (fun _ => [5])).sample_queue =
        (List.range snapshotState.num_samples).map (fun i =>
          { sample := (fun _ : String => [5]) (sampleFileName i)
            context_initialized := false
            priority := snapshotState.min_priority
            sample_index := i }) :=
  (saveRestore_roundtrip snapshotState (fun _ => [5])).2 (by decide)

/-- Concrete corpus entry for the C8 counterexample. -/
def poppedEntry : SampleQueueEntry :=
  { sample := [0], context_initialized := true, priority := 0, sample_index := 0 }

/-- Concrete engine state for the C8 counterexample: one queued entry of
priority 0, `min_priority` still at its large initial value. -/
def fuzzingState : FuzzerGlobal :=
  { state := Phase.FUZZING
    input_files := []
    server_samples := []
    samples_pending := 0
    sample_queue := [poppedEntry]
    min_priority := 1000
    fuzzer_coverage := ∅
    hasServer := false
    last_server_update_time_ms := 0
    num_samples := 1
    total_execs := 1 }

/-- Counterexample for C8: popping the priority-0 entry lowers
`min_priority` to 0, but one `AdjustSamplePriority` with no new coverage
drops the entry's priority to -1, strictly below `min_priority`, so the
bound does not continue to hold while the entry's priority is adjusted
during the FUZZ job. -/
theorem minPriority_claim_counterexample :
    (SynchronizeAndGetJob 0 [] 1000 fuzzingState).map (fun r => r.fz.min_priority)
      = some 0 ∧
    (SynchronizeAndGetJob 0 [] 1000 fuzzingState).map (fun r => r.job.entry)
      = some (some poppedEntry) ∧
    (AdjustSamplePriority poppedEntry false).priority < 0 := by
  refine ⟨by decide, by decide, by decide⟩

/-- C8 (amended): when a FUZZ job is dispensed, `min_priority` is lowered to
the popped entry's priority if that is smaller, so at the moment of popping
`min_priority` is at most the popped entry's priority; the bound need not
persist under the priority adjustments performed during the FUZZ job. -/
theorem minPriority_pop_bound (now : Nat) (batch : List (List Nat))
    (maxSampleSize : Nat) (fz : FuzzerGlobal) (r : SyncResult)
    (e : SampleQueueEntry)
    (h : SynchronizeAndGetJob now batch maxSampleSize fz = some r)
    (he : r.job.entry = some e) :
    r.fz.min_priority ≤ e.priority := by
  rw [SynchronizeAndGetJob] at h
  cases hstep : inputPhaseStep now batch (fuzzingServerPull now batch fz) with
  | none => rw [hstep] at h; exact absurd h (by simp)
  | some p =>
    obtain ⟨fz1, reports⟩ := p
    rw [hstep] at h
    simp only [Option.some.injEq] at h
    subst h
    exact dispatchJob_entry_minPriority maxSampleSize (serverDrainStep fz1) e he

/-- Witness for C8 (amended): on the concrete `fuzzingState`, the dispensed
FUZZ job pops the priority-0 entry and `min_priority` drops to 0 ≤ 0. -/
theorem minPriority_pop_bound_witness :
    ((SynchronizeAndGetJob 0 [] 1000 fuzzingState).getD
        ⟨fuzzingState, { type := JobType.WAIT }, []⟩).fz.min_priority
      ≤ poppedEntry.priority :=
  minPriority_pop_bound 0 [] 1000 fuzzingState
    ((SynchronizeAndGetJob 0 [] 1000 fuzzingState).getD
        ⟨fuzzingState, { type := JobType.WAIT }, []⟩)
    poppedEntry (by decide) (by decide)

/-- Counterexample for C9: with `num_hangs = 0` and `save_hangs` enabled, the
source saves the hang sample as `hang_0` and only then increments `num_hangs`
to 1, so the filename suffix is the value of `num_hangs` before this hang was
counted, not after. -/
theorem handleHang_claim_counterexample :
    (handleHang true 0).1 = 1 ∧
    (handleHang true 0).2 = some "hang_0" ∧
    some "hang_0" ≠ some ("hang_" ++ Nat.repr ((handleHang true 0).1)) := by
  refine ⟨rfl, rfl, by decide⟩

/-- C9 (amended): on a HANG, `num_hangs` is incremented, and when
`save_hangs` is enabled the sample is persisted to `hang_<n>` where `n` is
the value of `num_hangs` before the increment (one less than its value after
this hang is accounted for). -/
theorem handleHang_spec (s : Bool) (n : Nat) :
    (handleHang s n).1 = n + 1 ∧
    (handleHang true n).2 = some ("hang_" ++ Nat.repr ((handleHang true n).1 - 1)) ∧
    (handleHang false n).2 = none := by
  refine ⟨rfl, by simp [handleHang], rfl⟩

/-- C10: `MagicOutputFilter` returns false (leaving the output untouched) iff
the sample is at least as long as the magic string and starts with it;
otherwise it returns true and the output is a copy of the sample, of the same
size, whose first `min (magic length) (sample size)` bytes are replaced by
the magic bytes and whose remaining bytes are those of the sample. -/
theorem magicOutputFilter_spec (s m : List Nat) :
    (MagicOutputFilter s m = none ↔
      (m.length ≤ s.length ∧ s.take m.length = m)) ∧
    (∀ out, MagicOutputFilter s m = some out →
      out.length = s.length ∧
      out = m.take (min m.length s.length) ++ s.drop (min m.length s.length)) := by
  constructor
  · constructor
    · intro h
      by_contra hc
      simp [MagicOutputFilter, hc] at h
    · intro h
      simp [MagicOutputFilter, h]
  · intro out hout
    by_cases hc : m.length ≤ s.length ∧ s.take m.length = m
    · simp [MagicOutputFilter, hc] at hout
    · simp [MagicOutputFilter, hc] at hout
      subst hout
      exact ⟨writeMagic_length s m, writeMagic_eq s m⟩

/-- Witness for C10: on the sample `[1, 2]` with magic `[9]`, the filter
rewrites the first byte and keeps the rest. -/
theorem magicOutputFilter_spec_witness :
    ([9, 2] : List Nat).length = ([1, 2] : List Nat).length ∧
    ([9, 2] : List Nat) =
      ([9] : List Nat).take (min ([9] : List Nat).length ([1, 2] : List Nat).length) ++
      ([1, 2] : List Nat).drop (min ([9] : List Nat).length ([1, 2] : List Nat).length) :=
  (magicOutputFilter_spec [1, 2] [9]).2 [9, 2] rfl

end Haze
